import Mathlib

/-!
Verification of the connection orchestrator of an in-memory key-value
server (`src/orchestrator.h`).  The repository ships only the orchestrator
header: it declares the `Orchestrator` class, its constructor (which builds
the four thread pools), the `command_type_t` enum and the compile-time
constants, while the bodies of `do_get`, `do_set`, `do_del`,
`is_valid_command`, `get_partition`, the thread pool, the RESP parser and
the data store live in translation units that are not part of the sources.
Those missing parts are modelled here from the specification, as marked on
each definition; everything present in the header (constants, enum,
constructor initialisations) is embedded directly from it.

Byte strings are modelled as lists of naturals (one per byte).
-/

namespace Orch

/-- A byte string: the contents of a `std::string` used as key, value or
protocol payload. -/
abbrev ByteStr := List Nat

/-- Bytes of a Lean string literal, used to write protocol constants. -/
def strBytes (s : String) : ByteStr := s.data.map Char.toNat

/-- Embedded from the header: `#define NUM_DATASTORES 10`. -/
def NUM_DATASTORES : Nat := 10

/-- Embedded from the header: `#define PORTNUM 6379`. -/
def PORTNUM : Nat := 6379

/-- Embedded from the header: `#define MAX_EPOLL_EVENTS 10`. -/
def MAX_EPOLL_EVENTS : Nat := 10

/-- Embedded from the header: the `command_type_t` enum
(`COMMAND_INVALID`, `COMMAND_GET`, `COMMAND_DEL`, `COMMAND_SET`). -/
inductive command_type_t where
  | COMMAND_INVALID
  | COMMAND_GET
  | COMMAND_DEL
  | COMMAND_SET
deriving DecidableEq, Repr

/-- Modelled from the spec: `resp_parser.h` is not in the sources.  The
"abstract RESP object" is a tagged sum over the five RESP kinds (§6):
Simple String, Error, Integer, Bulk String (with a nil variant) and
Array (with a nil variant). -/
inductive RespObject where
  | simple (s : ByteStr)
  | respError (s : ByteStr)
  | integer (n : Int)
  | bulk (s : ByteStr)
  | nilBulk
  | array (xs : List RespObject)
  | nilArray

/-- Modelled from the spec: `data_store.h` is not in the sources.  A shard
is one independent key→value map with its own lock (§3, C1); the lock is
irrelevant to the functional model, so a shard is an association list from
byte-string keys to byte-string values. -/
abbrev Shard := List (ByteStr × ByteStr)

/-- Modelled from the spec: shard lookup, `get(key) → (found, value)` (§4.1). -/
def Shard.get (sh : Shard) (k : ByteStr) : Option ByteStr :=
  match sh.find? (fun p => p.1 = k) with
  | some p => some p.2
  | none => none

/-- Modelled from the spec: shard store; "SET always replaces" (§4.1). -/
def Shard.set (sh : Shard) (k v : ByteStr) : Shard :=
  (k, v) :: sh.filter (fun p => ¬ (p.1 = k))

/-- Modelled from the spec: shard delete, `del(key) → removed` (§4.1);
returns the new shard and whether the key was present. -/
def Shard.del (sh : Shard) (k : ByteStr) : Shard × Bool :=
  (sh.filter (fun p => ¬ (p.1 = k)), sh.any (fun p => p.1 = k))

/-- The sharded store: the `m_datastore[NUM_DATASTORES]` array of the
orchestrator, one shard per index. -/
abbrev Store := List Shard

/-- The store at process start: `NUM_DATASTORES` empty shards. -/
def Store.init : Store := List.replicate NUM_DATASTORES []

/-- Modelled from the spec: `get_partition` has no body in the sources.
The store router is the pure function `partition(key) = hash(key) mod N`
with N the compile-time constant `NUM_DATASTORES` (§3, C2); the hash is a
parameter of the model. -/
def get_partition (hash : ByteStr → Nat) (s : ByteStr) : Nat :=
  hash s % NUM_DATASTORES

/-- Read a key from the shard its hash selects. -/
def Store.getKey (hash : ByteStr → Nat) (st : Store) (k : ByteStr) :
    Option ByteStr :=
  (st.getD (get_partition hash k) []).get k

/-- Store a key in the shard its hash selects. -/
def Store.setKey (hash : ByteStr → Nat) (st : Store) (k v : ByteStr) :
    Store :=
  st.set (get_partition hash k) ((st.getD (get_partition hash k) []).set k v)

/-- Delete a key from the shard its hash selects; also returns whether
the key was present. -/
def Store.delKey (hash : ByteStr → Nat) (st : Store) (k : ByteStr) :
    Store × Bool :=
  let r := (st.getD (get_partition hash k) []).del k
  (st.set (get_partition hash k) r.1, r.2)

/-- The bytes of the verb `GET`. -/
def GET_BYTES : ByteStr := strBytes "GET"

/-- The bytes of the verb `SET`. -/
def SET_BYTES : ByteStr := strBytes "SET"

/-- The bytes of the verb `DEL`. -/
def DEL_BYTES : ByteStr := strBytes "DEL"

/-- Uppercase one ASCII byte. -/
def byteUpper (b : Nat) : Nat := if 97 ≤ b ∧ b ≤ 122 then b - 32 else b

/-- Uppercase a byte string, for case-insensitive verb comparison. -/
def bytesUpper (s : ByteStr) : ByteStr := s.map byteUpper

/-- Modelled from the spec: `is_valid_command` has no body in the sources.
A valid command is an array whose first element is a bulk string naming a
supported verb (case-insensitive GET, SET, DEL) with the right arity
(GET: 2; SET: 3; DEL: ≥ 2); anything else is invalid (§4.5).  Mirrors the
declared return type `std::tuple<bool, command_type_t>`. -/
def is_valid_command (p : RespObject) : Bool × command_type_t :=
  match p with
  | .array (.bulk name :: rest) =>
    let u := bytesUpper name
    let len := rest.length + 1
    if u = GET_BYTES ∧ len = 2 then (true, .COMMAND_GET)
    else if u = SET_BYTES ∧ len = 3 then (true, .COMMAND_SET)
    else if u = DEL_BYTES ∧ 2 ≤ len then (true, .COMMAND_DEL)
    else (false, .COMMAND_INVALID)
  | _ => (false, .COMMAND_INVALID)

/-- The spec's characterisation of a valid command, written from §4.5
verbatim for comparison with `is_valid_command`: an array whose first
element is a bulk string naming GET, SET or DEL case-insensitively with
the right arity. -/
def ValidCommandSpec (p : RespObject) : Prop :=
  ∃ name rest, p = .array (.bulk name :: rest) ∧
    ((bytesUpper name = GET_BYTES ∧ rest.length + 1 = 2) ∨
     (bytesUpper name = SET_BYTES ∧ rest.length + 1 = 3) ∨
     (bytesUpper name = DEL_BYTES ∧ 2 ≤ rest.length + 1))

/-- Payload of the error reply for an invalid command (§6: the reply is an
Error value `-ERR ...`). -/
def ERR_INVALID : ByteStr := strBytes "ERR invalid command"

/-- Payload of the error reply for a byte-level framing error (§7). -/
def ERR_PROTOCOL : ByteStr := strBytes "ERR protocol error"

/-- The key argument of a GET command: the second element of the array,
which must be a bulk string; `none` when the argument has the wrong type
or the shape is off. -/
def getArg : RespObject → Option ByteStr
  | .array [_, .bulk k] => some k
  | _ => none

/-- The key and value arguments of a SET command, both of which must be
bulk strings; `none` on a wrong argument type. -/
def setArgs : RespObject → Option (ByteStr × ByteStr)
  | .array [_, .bulk k, .bulk v] => some (k, v)
  | _ => none

/-- The payloads of a list of DEL arguments; `none` as soon as one
argument is not a bulk string (a wrong argument type, §6). -/
def bulkArgs : List RespObject → Option (List ByteStr)
  | [] => some []
  | .bulk k :: rest => (bulkArgs rest).map (fun ks => k :: ks)
  | _ => none

/-- The key arguments of a DEL command: every element after the verb,
each of which must be a bulk string. -/
def delArgs : RespObject → Option (List ByteStr)
  | .array (_ :: keys) => bulkArgs keys
  | _ => none

/-- Modelled from the spec: `do_get` has no body in the sources.  GET
looks the key up in shard `partition(key)` and replies with the value or
nil (§4.5); a wrong argument type replies an Error (§6).  Mirrors the
declared return `std::tuple<bool, AbstractRespObject>` with the flag true
on success. -/
def do_get (hash : ByteStr → Nat) (st : Store) (p : RespObject) :
    Bool × RespObject :=
  match getArg p with
  | some k =>
    match st.getKey hash k with
    | some v => (true, .bulk v)
    | none => (true, .nilBulk)
  | none => (false, .respError ERR_INVALID)

/-- Modelled from the spec: `do_set` has no body in the sources.  SET
stores the value in shard `partition(key)` and replies `+OK` (§4.5, §6);
a wrong argument type replies an Error (§6).  The updated store is
returned since the datastore is orchestrator state. -/
def do_set (hash : ByteStr → Nat) (st : Store) (p : RespObject) :
    Store × (Bool × RespObject) :=
  match setArgs p with
  | some (k, v) => (st.setKey hash k v, (true, .simple (strBytes "OK")))
  | none => (st, (false, .respError ERR_INVALID))

/-- Modelled from the spec: `do_del` has no body in the sources.  DEL
accepts one or more keys, deletes each from its shard and replies with
the integer count removed (§4.5); absence is not an error (§4.1), but an
argument that is not a bulk string is a wrong argument type and replies
an Error (§6). -/
def do_del (hash : ByteStr → Nat) (st : Store) (p : RespObject) :
    Store × (Bool × RespObject) :=
  match delArgs p with
  | some ks =>
    let r := ks.foldl
      (fun acc k =>
        let s := Store.delKey hash acc.1 k
        (s.1, acc.2 + (if s.2 then 1 else 0)))
      (st, (0 : Int))
    (r.1, (true, .integer r.2))
  | none => (st, (false, .respError ERR_INVALID))

/-- Modelled from the spec: `do_operation` has no body in the sources.
It validates the command shape with `is_valid_command` and dispatches to
GET, SET or DEL; an invalid command yields an error reply (§4.5). -/
def do_operation (hash : ByteStr → Nat) (st : Store) (p : RespObject) :
    Store × (Bool × RespObject) :=
  match (is_valid_command p).2 with
  | .COMMAND_GET => (st, do_get hash st p)
  | .COMMAND_SET => do_set hash st p
  | .COMMAND_DEL => do_del hash st p
  | .COMMAND_INVALID => (st, (false, .respError ERR_INVALID))

/-- Modelled from the spec: the application-level errors of §6/§7 — an
unknown command or wrong arity (the command fails validation), or a
recognised verb whose arguments have the wrong types (GET and SET need
bulk-string arguments, DEL needs every key to be a bulk string). -/
def appLevelError (p : RespObject) : Bool :=
  match (is_valid_command p).2 with
  | .COMMAND_INVALID => true
  | .COMMAND_GET => (getArg p).isNone
  | .COMMAND_SET => (setArgs p).isNone
  | .COMMAND_DEL => (delArgs p).isNone

/-- The reply of a command together with the store it leaves behind. -/
def execute_command (hash : ByteStr → Nat) (st : Store) (p : RespObject) :
    Store × RespObject :=
  let r := do_operation hash st p
  (r.1, r.2.2)

/-- The RESP line terminator. -/
def CRLF : ByteStr := [13, 10]

/-- Decimal digits of a natural number, as bytes. -/
def natBytes (n : Nat) : ByteStr := (Nat.toDigits 10 n).map Char.toNat

/-- Decimal rendering of an integer, as bytes. -/
def intBytes (n : Int) : ByteStr :=
  if n < 0 then 45 :: natBytes n.natAbs else natBytes n.toNat

mutual

/-- Modelled from the spec: the RESP serializer is not in the sources.
Wire encoding of §6: `+s\r\n`, `-s\r\n`, `:N\r\n`, `$LEN\r\n<bytes>\r\n`
(nil bulk `$-1\r\n`), `*N\r\n<elements>` (nil array `*-1\r\n`). -/
def serialize : RespObject → ByteStr
  | .simple s => 43 :: (s ++ CRLF)
  | .respError s => 45 :: (s ++ CRLF)
  | .integer n => 58 :: (intBytes n ++ CRLF)
  | .bulk s => 36 :: (natBytes s.length ++ CRLF ++ s ++ CRLF)
  | .nilBulk => strBytes "$-1" ++ CRLF
  | .array xs => 42 :: (natBytes xs.length ++ CRLF ++ serializeList xs)
  | .nilArray => strBytes "*-1" ++ CRLF

/-- Wire encoding of the elements of a RESP array, in order. -/
def serializeList : List RespObject → ByteStr
  | [] => []
  | x :: xs => serialize x ++ serializeList xs

end

/-- Modelled from the spec: the Execute stage's frame loop (§4.5 steps
2–7).  Runs the complete frames of a connection's input buffer in arrival
order, threading the store and collecting the replies in the same order. -/
def exec_frames (hash : ByteStr → Nat) :
    Store → List RespObject → Store × List RespObject
  | st, [] => (st, [])
  | st, c :: cs =>
    let r := execute_command hash st c
    let rest := exec_frames hash r.1 cs
    (rest.1, r.2 :: rest.2)

/-- Modelled from the spec: the reply bytes appended to `out_buf` for a
batch of frames, serialized in execution order (§4.5 step 6, §4.6). -/
def out_bytes (hash : ByteStr → Nat) (st : Store) (cs : List RespObject) :
    ByteStr :=
  ((exec_frames hash st cs).2.map serialize).flatten

/-- Modelled from the spec: the events that drive one step of a
connection in the Execute stage — a complete parsed frame, a byte-level
framing error, a transport error, or EOF (§4.5, §7). -/
inductive ConnEvent where
  | parsed (v : RespObject)
  | malformedFrame
  | ioError
  | eofClosed

/-- Modelled from the spec: the connection's reaction to one event (§7
taxonomy): a parsed frame is executed and replied to with the connection
left open; a framing error replies `-ERR protocol error` and tears the
connection down; transport errors and EOF tear it down without a reply.
Returns (new store, optional reply, whether the connection stays open). -/
def conn_step (hash : ByteStr → Nat) (st : Store) (e : ConnEvent) :
    Store × Option RespObject × Bool :=
  match e with
  | .parsed v =>
    let r := do_operation hash st v
    (r.1, some r.2.2, true)
  | .malformedFrame => (st, some (.respError ERR_PROTOCOL), false)
  | .ioError => (st, none, false)
  | .eofClosed => (st, none, false)

/-- Modelled from the spec: `thread_pool.h` is not in the sources.  A pool
is a fixed set of worker threads on a FIFO queue (§4.2); only the
construction parameters matter to the model. -/
structure ThreadPool where
  num_threads : Nat
  flag : Bool
deriving DecidableEq, Repr

/-- Modelled from the spec: `ThreadPoolFactory::create_thread_pool` has no
body in the sources; it builds a pool with the requested fixed worker
count (§4.2). -/
def create_thread_pool (n : Nat) (b : Bool) : ThreadPool := ⟨n, b⟩

/-- The `Orchestrator` members relevant to construction, embedded from the
header: the server socket, the `all_sockets` map (keys only), the four
thread-pool pointers (modelled as `Option`, `none` being a null pointer),
the destroying flag and the epoll fd. -/
structure Orchestrator where
  m_server_socket : Int
  m_all_sockets : List Nat
  m_read_threadpool : Option ThreadPool
  m_processing_threadpool : Option ThreadPool
  m_parse_and_run_threadpool : Option ThreadPool
  m_write_threadpool : Option ThreadPool
  m_is_destroying : Bool
  m_epoll_fd : Int
deriving DecidableEq, Repr

/-- The constructor `Orchestrator::Orchestrator()`, embedded from the
header: initialiser list sets `m_server_socket(-1)` and `m_epoll_fd(-1)`;
the body creates the four pools via `create_thread_pool(8, false)` and
sets `m_is_destroying = false`; the `m_all_sockets` map default-constructs
empty. -/
def Orchestrator.construct : Orchestrator :=
  { m_server_socket := -1
    m_all_sockets := []
    m_read_threadpool := some (create_thread_pool 8 false)
    m_processing_threadpool := some (create_thread_pool 8 false)
    m_write_threadpool := some (create_thread_pool 8 false)
    m_parse_and_run_threadpool := some (create_thread_pool 8 false)
    m_is_destroying := false
    m_epoll_fd := -1 }

/-- The locks of the orchestrator named by the header: the `all_sockets`
map lock, a connection's `State` mutex, the three index-set locks, and a
shard's lock (§5). -/
inductive LockId where
  | all_sockets_mtx
  | conn_mutex
  | epoll_sockets_mtx
  | write_sockets_mtx
  | processing_sockets_mtx
  | shard_lock
deriving DecidableEq, Repr

/-- The level of each lock in the hierarchy of §5 (acquire in increasing
order): `all_sockets_mtx`, connection mutex, `epoll_sockets_mtx`,
`write_sockets_mtx`, `processing_sockets_mtx`, shard lock innermost. -/
def lock_level : LockId → Nat
  | .all_sockets_mtx => 1
  | .conn_mutex => 2
  | .epoll_sockets_mtx => 3
  | .write_sockets_mtx => 4
  | .processing_sockets_mtx => 5
  | .shard_lock => 6

/-- Modelled from the spec: the thread bodies are not in the sources.
Each list is the nesting order of the locks one thread holds
simultaneously on one critical path (§4.3–§4.7, §5): the acceptor
registering a connection; the reactor moving an fd between the epoll set
and the processing or write set; the execute stage moving an fd between
sets; the write stage handing an fd onward; the execute stage touching a
shard below a connection mutex; teardown removing an fd everywhere. -/
def lock_traces : List (List LockId) :=
  [ [.all_sockets_mtx, .epoll_sockets_mtx],
    [.epoll_sockets_mtx, .processing_sockets_mtx],
    [.epoll_sockets_mtx, .write_sockets_mtx],
    [.write_sockets_mtx, .processing_sockets_mtx],
    [.conn_mutex, .epoll_sockets_mtx],
    [.conn_mutex, .write_sockets_mtx],
    [.conn_mutex, .processing_sockets_mtx],
    [.conn_mutex, .shard_lock],
    [.all_sockets_mtx, .conn_mutex, .epoll_sockets_mtx,
      .write_sockets_mtx, .processing_sockets_mtx] ]

/-- A lock-acquisition trace respects the hierarchy when each lock taken
while another is held sits at a strictly greater level. -/
def trace_ordered : List LockId → Bool
  | [] => true
  | [_] => true
  | a :: b :: rest => (lock_level a < lock_level b) && trace_ordered (b :: rest)

/-- The four index structures of the orchestrator that record which stage
owns each fd: the authoritative `m_all_sockets` map (keys only) and the
three disjoint sets `m_epoll_sockets`, `m_processing_sockets`,
`m_write_sockets`. -/
structure SocketSets where
  all_sockets : List Nat
  epoll_sockets : List Nat
  processing_sockets : List Nat
  write_sockets : List Nat

/-- Remove an fd from an index set. -/
def rmFd (l : List Nat) (fd : Nat) : List Nat := l.filter (fun x => x ≠ fd)

/-- The index state at orchestrator construction: every set empty. -/
def SocketSets.init : SocketSets := ⟨[], [], [], []⟩

/-- Modelled from the spec: the thread bodies are not in the sources.
The atomic transitions on the index sets, each performed under the set
locks (§4.3–§4.8): the acceptor registers a fresh fd in `all_sockets` and
the epoll set; the reactor moves a ready fd from the epoll set to the
processing or write set; the execute stage moves its fd to the epoll set
(idle) or the write set (reply pending); the write stage moves its fd to
the epoll set (drained) or the processing set (unparsed bytes remain);
`remove_socket` removes an fd from every structure. -/
inductive SockStep : SocketSets → SocketSets → Prop where
  | accept (s : SocketSets) (fd : Nat) (h : fd ∉ s.all_sockets) :
      SockStep s ⟨fd :: s.all_sockets, fd :: s.epoll_sockets,
        s.processing_sockets, s.write_sockets⟩
  | dispatch_read (s : SocketSets) (fd : Nat) (h : fd ∈ s.epoll_sockets) :
      SockStep s ⟨s.all_sockets, rmFd s.epoll_sockets fd,
        fd :: s.processing_sockets, s.write_sockets⟩
  | dispatch_write (s : SocketSets) (fd : Nat) (h : fd ∈ s.epoll_sockets) :
      SockStep s ⟨s.all_sockets, rmFd s.epoll_sockets fd,
        s.processing_sockets, fd :: s.write_sockets⟩
  | exec_to_epoll (s : SocketSets) (fd : Nat)
      (h : fd ∈ s.processing_sockets) :
      SockStep s ⟨s.all_sockets, fd :: s.epoll_sockets,
        rmFd s.processing_sockets fd, s.write_sockets⟩
  | exec_to_write (s : SocketSets) (fd : Nat)
      (h : fd ∈ s.processing_sockets) :
      SockStep s ⟨s.all_sockets, s.epoll_sockets,
        rmFd s.processing_sockets fd, fd :: s.write_sockets⟩
  | write_to_epoll (s : SocketSets) (fd : Nat)
      (h : fd ∈ s.write_sockets) :
      SockStep s ⟨s.all_sockets, fd :: s.epoll_sockets,
        s.processing_sockets, rmFd s.write_sockets fd⟩
  | write_to_processing (s : SocketSets) (fd : Nat)
      (h : fd ∈ s.write_sockets) :
      SockStep s ⟨s.all_sockets, s.epoll_sockets,
        fd :: s.processing_sockets, rmFd s.write_sockets fd⟩
  | remove (s : SocketSets) (fd : Nat) :
      SockStep s ⟨rmFd s.all_sockets fd, rmFd s.epoll_sockets fd,
        rmFd s.processing_sockets fd, rmFd s.write_sockets fd⟩

/-- A state of the index sets the orchestrator can actually be in:
reachable from the empty initial state by the atomic transitions. -/
def SockReachable (s : SocketSets) : Prop :=
  Relation.ReflTransGen SockStep SocketSets.init s

/-- A value belongs to the first of three lists and not the other two, or
the second only, or the third only. -/
@[reducible]
def exOne (a b c : List Nat) (g : Nat) : Prop :=
  (g ∈ a ∧ g ∉ b ∧ g ∉ c) ∨
  (g ∉ a ∧ g ∈ b ∧ g ∉ c) ∨
  (g ∉ a ∧ g ∉ b ∧ g ∈ c)

/-- An fd belongs to exactly one of the three stage sets. -/
@[reducible]
def inExactlyOneSet (s : SocketSets) (fd : Nat) : Prop :=
  exOne s.epoll_sockets s.processing_sockets s.write_sockets fd

/-- The inductive invariant: every fd of `all_sockets` is in exactly one
stage set, and every fd of a stage set is in `all_sockets`. -/
def SockInv (s : SocketSets) : Prop :=
  (∀ fd, fd ∈ s.all_sockets → inExactlyOneSet s fd) ∧
  (∀ fd, fd ∈ s.epoll_sockets ∨ fd ∈ s.processing_sockets ∨
    fd ∈ s.write_sockets → fd ∈ s.all_sockets)

theorem mem_rmFd {l : List Nat} {a fd : Nat} :
    a ∈ rmFd l fd ↔ a ∈ l ∧ a ≠ fd := by
  simp [rmFd]

theorem getD_set_self {α : Type} (l : List α) (i : Nat) (a d : α)
    (h : i < l.length) : (l.set i a).getD i d = a := by
  induction l generalizing i with
  | nil => simp at h
  | cons x xs ih =>
    cases i with
    | zero => rfl
    | succ n =>
      show (xs.set n a).getD n d = a
      exact ih n (Nat.lt_of_succ_lt_succ (by simpa using h))

theorem getD_set_ne {α : Type} (l : List α) (i j : Nat) (a d : α)
    (h : j ≠ i) : (l.set i a).getD j d = l.getD j d := by
  induction l generalizing i j with
  | nil => simp
  | cons x xs ih =>
    cases i with
    | zero =>
      cases j with
      | zero => exact absurd rfl h
      | succ m => rfl
    | succ n =>
      cases j with
      | zero => rfl
      | succ m =>
        show (xs.set n a).getD m d = xs.getD m d
        exact ih n m (fun e => h (by rw [e]))

theorem set_getD_self {α : Type} (l : List α) (i : Nat) (d : α)
    (h : i < l.length) : l.set i (l.getD i d) = l := by
  induction l generalizing i with
  | nil => simp at h
  | cons x xs ih =>
    cases i with
    | zero => rfl
    | succ n =>
      show x :: xs.set n (xs.getD n d) = x :: xs
      rw [ih n (Nat.lt_of_succ_lt_succ (by simpa using h))]

theorem shard_get_set (sh : Shard) (k v : ByteStr) :
    (sh.set k v).get k = some v := by
  simp [Shard.get, Shard.set, List.find?]

theorem shard_get_none_del (sh : Shard) (k : ByteStr) (h : sh.get k = none) :
    sh.del k = (sh, false) := by
  have hall : ∀ p ∈ sh, p.1 ≠ k := by
    intro p hp
    cases hfind : sh.find? (fun q => q.1 = k) with
    | some q => simp [Shard.get, hfind] at h
    | none => simpa using List.find?_eq_none.mp hfind p hp
  have hf : sh.filter (fun p => ¬ (p.1 = k)) = sh :=
    List.filter_eq_self.mpr (by intro a ha; simpa using hall a ha)
  have ha : sh.any (fun p => p.1 = k) = false := by
    simp only [List.any_eq_false]
    intro a ha
    simpa using hall a ha
  unfold Shard.del
  rw [hf, ha]

theorem partition_lt (hash : ByteStr → Nat) (k : ByteStr) :
    get_partition hash k < NUM_DATASTORES :=
  Nat.mod_lt _ (by decide)

theorem getKey_setKey (hash : ByteStr → Nat) (st : Store) (k v : ByteStr)
    (h : st.length = NUM_DATASTORES) :
    Store.getKey hash (Store.setKey hash st k v) k = some v := by
  unfold Store.getKey Store.setKey
  rw [getD_set_self _ _ _ _ (by rw [h]; exact partition_lt hash k)]
  exact shard_get_set _ k v

/-- C1: for every key `k` and byte-string value `v` (empty and binary
included), `do_set` of `SET k v` followed by `do_get` of `GET k` on the
resulting store returns `v`: the stored value round-trips. -/
theorem do_set_do_get_roundtrip (hash : ByteStr → Nat) (st : Store)
    (k v : ByteStr) (h : st.length = NUM_DATASTORES) :
    do_get hash
      (do_set hash st
        (.array [.bulk SET_BYTES, .bulk k, .bulk v])).1
      (.array [.bulk GET_BYTES, .bulk k]) = (true, .bulk v) := by
  simp [do_set, do_get, getArg, setArgs, getKey_setKey hash st k v h]

/-- Witness for C1: round-trip of `SET [1,2] [200,0,7]` then
`GET [1,2]` on the freshly initialised store. -/
theorem do_set_do_get_roundtrip_witness :
    Store.init.length = NUM_DATASTORES ∧
    do_get (fun b => b.foldl (fun a x => a * 31 + x) 0)
      (do_set (fun b => b.foldl (fun a x => a * 31 + x) 0) Store.init
        (.array [.bulk SET_BYTES, .bulk [1, 2], .bulk [200, 0, 7]])).1
      (.array [.bulk GET_BYTES, .bulk [1, 2]]) =
      (true, .bulk [200, 0, 7]) :=
  ⟨by decide,
   do_set_do_get_roundtrip (fun b => b.foldl (fun a x => a * 31 + x) 0)
     Store.init [1, 2] [200, 0, 7] (by decide)⟩

/-- C7: `do_del` on a key absent from the store removes nothing: the
store is unchanged and the reply is the RESP Integer 0 (absence is not an
error). -/
theorem do_del_absent (hash : ByteStr → Nat) (st : Store) (k : ByteStr)
    (h : st.length = NUM_DATASTORES)
    (habs : Store.getKey hash st k = none) :
    do_del hash st (.array [.bulk DEL_BYTES, .bulk k]) =
      (st, (true, .integer 0)) := by
  have hdel : Store.delKey hash st k = (st, false) := by
    have h1 : (st.getD (get_partition hash k) []).del k =
        (st.getD (get_partition hash k) [], false) :=
      shard_get_none_del _ _ habs
    simp only [Store.delKey, h1]
    rw [set_getD_self st _ [] (by rw [h]; exact partition_lt hash k)]
  simp [do_del, delArgs, bulkArgs, hdel]

/-- Witness for C7: `DEL [9]` on the freshly initialised store replies
`:0` and leaves the store as it was. -/
theorem do_del_absent_witness :
    Store.init.length = NUM_DATASTORES ∧
    Store.getKey (fun b => b.length) Store.init [9] = none ∧
    do_del (fun b => b.length) Store.init
      (.array [.bulk DEL_BYTES, .bulk [9]]) =
      (Store.init, (true, .integer 0)) :=
  ⟨by decide, by decide,
   do_del_absent (fun b => b.length) Store.init [9] (by decide) (by decide)⟩

/-- C8: `get_partition` computes `hash(key) mod NUM_DATASTORES` with
`NUM_DATASTORES = 10` fixed at compile time; the result is always below
10, and storing a key touches no shard other than the one the partition
selects. -/
theorem get_partition_spec (hash : ByteStr → Nat) (s k v : ByteStr)
    (st : Store) (i : Nat) (hne : i ≠ get_partition hash k) :
    get_partition hash s = hash s % NUM_DATASTORES ∧
    get_partition hash s < NUM_DATASTORES ∧
    NUM_DATASTORES = 10 ∧
    (Store.setKey hash st k v).getD i [] = st.getD i [] := by
  refine ⟨rfl, partition_lt hash s, rfl, ?_⟩
  unfold Store.setKey
  exact getD_set_ne st _ i _ [] hne

/-- Witness for C8: with the length hash, key `[3]` partitions to shard
1, and setting it leaves shard 2 of the initial store untouched. -/
theorem get_partition_spec_witness :
    (2 ≠ get_partition (fun b => b.length) [3]) ∧
    (get_partition (fun b => b.length) [4, 5] =
      (fun b => (b : ByteStr).length) [4, 5] % NUM_DATASTORES ∧
     get_partition (fun b => b.length) [4, 5] < NUM_DATASTORES ∧
     NUM_DATASTORES = 10 ∧
     (Store.setKey (fun b => b.length) Store.init [3] [7]).getD 2 [] =
       Store.init.getD 2 []) :=
  ⟨by decide,
   get_partition_spec (fun b => b.length) [4, 5] [3] [7] Store.init 2
     (by decide)⟩

/-- C5: `is_valid_command` classifies a RESP value as a non-INVALID
command exactly when it is an array whose first element is a bulk string
naming GET, SET or DEL case-insensitively with the right arity (GET: 2
elements, SET: 3, DEL: at least 2); everything else is
`COMMAND_INVALID`. -/
theorem is_valid_command_correct (p : RespObject) :
    (is_valid_command p).2 ≠ command_type_t.COMMAND_INVALID ↔
      ValidCommandSpec p := by
  cases p with
  | simple s => simp [is_valid_command, ValidCommandSpec]
  | respError s => simp [is_valid_command, ValidCommandSpec]
  | integer n => simp [is_valid_command, ValidCommandSpec]
  | bulk s => simp [is_valid_command, ValidCommandSpec]
  | nilBulk => simp [is_valid_command, ValidCommandSpec]
  | nilArray => simp [is_valid_command, ValidCommandSpec]
  | array xs =>
    cases xs with
    | nil => simp [is_valid_command, ValidCommandSpec]
    | cons hd tl =>
      cases hd with
      | simple s => simp [is_valid_command, ValidCommandSpec]
      | respError s => simp [is_valid_command, ValidCommandSpec]
      | integer n => simp [is_valid_command, ValidCommandSpec]
      | nilBulk => simp [is_valid_command, ValidCommandSpec]
      | array ys => simp [is_valid_command, ValidCommandSpec]
      | nilArray => simp [is_valid_command, ValidCommandSpec]
      | bulk name =>
        simp only [is_valid_command]
        split_ifs with h1 h2 h3
        · exact iff_of_true (by decide) ⟨name, tl, rfl, Or.inl h1⟩
        · exact iff_of_true (by decide)
            ⟨name, tl, rfl, Or.inr (Or.inl h2)⟩
        · exact iff_of_true (by decide)
            ⟨name, tl, rfl, Or.inr (Or.inr h3)⟩
        · refine iff_of_false (by decide) ?_
          rintro ⟨name', rest', heq, hc⟩
          have hinj : RespObject.bulk name = RespObject.bulk name' ∧
              tl = rest' := by
            injection heq with h'
            injection h' with ha hb
            exact ⟨ha, hb⟩
          obtain ⟨hname, htl⟩ := hinj
          injection hname with hname
          subst hname
          subst htl
          rcases hc with hc | hc | hc
          · exact h1 hc
          · exact h2 hc
          · exact h3 hc

theorem exOne_swap12 (a b c : List Nat) (g : Nat) :
    exOne a b c g ↔ exOne b a c g := by
  unfold exOne
  tauto

theorem exOne_swap23 (a b c : List Nat) (g : Nat) :
    exOne a b c g ↔ exOne a c b g := by
  unfold exOne
  tauto

theorem exOne_swap13 (a b c : List Nat) (g : Nat) :
    exOne a b c g ↔ exOne c b a g := by
  unfold exOne
  tauto

theorem exOne_move (a b c : List Nat) (fd : Nat) (h : fd ∈ a) (g : Nat)
    (hg : exOne a b c g) : exOne (rmFd a fd) (fd :: b) c g := by
  rcases eq_or_ne g fd with rfl | hne
  · rcases hg with ⟨_, hb, hc⟩ | ⟨ha, _, _⟩ | ⟨ha, _, _⟩
    · exact Or.inr (Or.inl ⟨fun hx => (mem_rmFd.mp hx).2 rfl,
        List.mem_cons_self _ _, hc⟩)
    · exact absurd h ha
    · exact absurd h ha
  · rcases hg with ⟨ha, hb, hc⟩ | ⟨ha, hb, hc⟩ | ⟨ha, hb, hc⟩
    · exact Or.inl ⟨mem_rmFd.mpr ⟨ha, hne⟩,
        fun hx => (List.mem_cons.mp hx).elim hne hb, hc⟩
    · exact Or.inr (Or.inl ⟨fun hx => ha (mem_rmFd.mp hx).1,
        List.mem_cons.mpr (Or.inr hb), hc⟩)
    · exact Or.inr (Or.inr ⟨fun hx => ha (mem_rmFd.mp hx).1,
        fun hx => (List.mem_cons.mp hx).elim hne hb, hc⟩)

theorem sockInv_init : SockInv SocketSets.init := by
  constructor
  · intro fd h
    exact absurd h (List.not_mem_nil fd)
  · intro fd h
    rcases h with h | h | h <;> exact absurd h (List.not_mem_nil fd)

theorem sockInv_step {s s' : SocketSets} (hs : SockInv s)
    (hstep : SockStep s s') : SockInv s' := by
  obtain ⟨h1, h2⟩ := hs
  cases hstep with
  | accept fd h =>
    refine ⟨?_, ?_⟩
    · intro g hg
      rcases List.mem_cons.mp hg with rfl | hg'
      · have hp : g ∉ s.processing_sockets :=
          fun hx => h (h2 g (Or.inr (Or.inl hx)))
        have hw : g ∉ s.write_sockets :=
          fun hx => h (h2 g (Or.inr (Or.inr hx)))
        exact Or.inl ⟨List.mem_cons_self _ _, hp, hw⟩
      · have hne : g ≠ fd := fun e => h (e ▸ hg')
        rcases h1 g hg' with ⟨ha, hb, hc⟩ | ⟨ha, hb, hc⟩ | ⟨ha, hb, hc⟩
        · exact Or.inl ⟨List.mem_cons.mpr (Or.inr ha), hb, hc⟩
        · exact Or.inr (Or.inl
            ⟨fun hx => (List.mem_cons.mp hx).elim hne ha, hb, hc⟩)
        · exact Or.inr (Or.inr
            ⟨fun hx => (List.mem_cons.mp hx).elim hne ha, hb, hc⟩)
    · intro g hg
      rcases hg with hg | hg | hg
      · rcases List.mem_cons.mp hg with rfl | hg'
        · exact List.mem_cons_self _ _
        · exact List.mem_cons.mpr (Or.inr (h2 g (Or.inl hg')))
      · exact List.mem_cons.mpr (Or.inr (h2 g (Or.inr (Or.inl hg))))
      · exact List.mem_cons.mpr (Or.inr (h2 g (Or.inr (Or.inr hg))))
  | dispatch_read fd h =>
    refine ⟨?_, ?_⟩
    · intro g hg
      exact exOne_move _ _ _ fd h g (h1 g hg)
    · intro g hg
      apply h2 g
      rcases hg with hg | hg | hg
      · exact Or.inl (mem_rmFd.mp hg).1
      · rcases List.mem_cons.mp hg with rfl | hg'
        · exact Or.inl h
        · exact Or.inr (Or.inl hg')
      · exact Or.inr (Or.inr hg)
  | dispatch_write fd h =>
    refine ⟨?_, ?_⟩
    · intro g hg
      exact (exOne_swap23 _ _ _ g).mp
        (exOne_move _ _ _ fd h g ((exOne_swap23 _ _ _ g).mp (h1 g hg)))
    · intro g hg
      apply h2 g
      rcases hg with hg | hg | hg
      · exact Or.inl (mem_rmFd.mp hg).1
      · exact Or.inr (Or.inl hg)
      · rcases List.mem_cons.mp hg with rfl | hg'
        · exact Or.inl h
        · exact Or.inr (Or.inr hg')
  | exec_to_epoll fd h =>
    refine ⟨?_, ?_⟩
    · intro g hg
      exact (exOne_swap12 _ _ _ g).mp
        (exOne_move _ _ _ fd h g ((exOne_swap12 _ _ _ g).mp (h1 g hg)))
    · intro g hg
      apply h2 g
      rcases hg with hg | hg | hg
      · rcases List.mem_cons.mp hg with rfl | hg'
        · exact Or.inr (Or.inl h)
        · exact Or.inl hg'
      · exact Or.inr (Or.inl (mem_rmFd.mp hg).1)
      · exact Or.inr (Or.inr hg)
  | exec_to_write fd h =>
    refine ⟨?_, ?_⟩
    · intro g hg
      have step1 := (exOne_swap23 _ _ _ g).mp
        ((exOne_swap12 _ _ _ g).mp (h1 g hg))
      have step2 := exOne_move _ _ _ fd h g step1
      exact (exOne_swap12 _ _ _ g).mp ((exOne_swap23 _ _ _ g).mp step2)
    · intro g hg
      apply h2 g
      rcases hg with hg | hg | hg
      · exact Or.inl hg
      · exact Or.inr (Or.inl (mem_rmFd.mp hg).1)
      · rcases List.mem_cons.mp hg with rfl | hg'
        · exact Or.inr (Or.inl h)
        · exact Or.inr (Or.inr hg')
  | write_to_epoll fd h =>
    refine ⟨?_, ?_⟩
    · intro g hg
      have step1 := (exOne_swap23 _ _ _ g).mp
        ((exOne_swap13 _ _ _ g).mp (h1 g hg))
      have step2 := exOne_move _ _ _ fd h g step1
      exact (exOne_swap23 _ _ _ g).mp ((exOne_swap12 _ _ _ g).mp step2)
    · intro g hg
      apply h2 g
      rcases hg with hg | hg | hg
      · rcases List.mem_cons.mp hg with rfl | hg'
        · exact Or.inr (Or.inr h)
        · exact Or.inl hg'
      · exact Or.inr (Or.inl hg)
      · exact Or.inr (Or.inr (mem_rmFd.mp hg).1)
  | write_to_processing fd h =>
    refine ⟨?_, ?_⟩
    · intro g hg
      have step1 := (exOne_swap13 _ _ _ g).mp (h1 g hg)
      have step2 := exOne_move _ _ _ fd h g step1
      exact (exOne_swap13 _ _ _ g).mp step2
    · intro g hg
      apply h2 g
      rcases hg with hg | hg | hg
      · exact Or.inl hg
      · rcases List.mem_cons.mp hg with rfl | hg'
        · exact Or.inr (Or.inr h)
        · exact Or.inr (Or.inl hg')
      · exact Or.inr (Or.inr (mem_rmFd.mp hg).1)
  | remove fd =>
    refine ⟨?_, ?_⟩
    · intro g hg
      obtain ⟨hall, hne⟩ := mem_rmFd.mp hg
      rcases h1 g hall with ⟨ha, hb, hc⟩ | ⟨ha, hb, hc⟩ | ⟨ha, hb, hc⟩
      · exact Or.inl ⟨mem_rmFd.mpr ⟨ha, hne⟩,
          fun hx => hb (mem_rmFd.mp hx).1,
          fun hx => hc (mem_rmFd.mp hx).1⟩
      · exact Or.inr (Or.inl ⟨fun hx => ha (mem_rmFd.mp hx).1,
          mem_rmFd.mpr ⟨hb, hne⟩,
          fun hx => hc (mem_rmFd.mp hx).1⟩)
      · exact Or.inr (Or.inr ⟨fun hx => ha (mem_rmFd.mp hx).1,
          fun hx => hb (mem_rmFd.mp hx).1,
          mem_rmFd.mpr ⟨hc, hne⟩⟩)
    · intro g hg
      rcases hg with hg | hg | hg
      · obtain ⟨hm, hne⟩ := mem_rmFd.mp hg
        exact mem_rmFd.mpr ⟨h2 g (Or.inl hm), hne⟩
      · obtain ⟨hm, hne⟩ := mem_rmFd.mp hg
        exact mem_rmFd.mpr ⟨h2 g (Or.inr (Or.inl hm)), hne⟩
      · obtain ⟨hm, hne⟩ := mem_rmFd.mp hg
        exact mem_rmFd.mpr ⟨h2 g (Or.inr (Or.inr hm)), hne⟩

theorem sockReachable_inv {s : SocketSets} (hreach : SockReachable s) :
    SockInv s := by
  induction hreach with
  | refl => exact sockInv_init
  | tail _ hbc ih => exact sockInv_step ih hbc

/-- C2: in every reachable state of the orchestrator's index structures,
an fd present in `all_sockets` is a member of exactly one of the three
sets `epoll_sockets`, `processing_sockets`, `write_sockets` (every
transition moving an fd between sets is atomic under the set locks). -/
theorem all_sockets_in_exactly_one_set (s : SocketSets)
    (hreach : SockReachable s) (fd : Nat)
    (hfd : fd ∈ s.all_sockets) : inExactlyOneSet s fd :=
  (sockReachable_inv hreach).1 fd hfd

/-- Witness for C2: after accepting fd 5 from the initial state it lies
in `all_sockets` and in exactly one stage set (the epoll set). -/
theorem all_sockets_in_exactly_one_set_witness :
    SockReachable ⟨[5], [5], [], []⟩ ∧
    inExactlyOneSet ⟨[5], [5], [], []⟩ 5 := by
  have hstep : SockStep SocketSets.init ⟨[5], [5], [], []⟩ :=
    SockStep.accept SocketSets.init 5 (by simp [SocketSets.init])
  refine ⟨Relation.ReflTransGen.single hstep, ?_⟩
  exact all_sockets_in_exactly_one_set ⟨[5], [5], [], []⟩
    (Relation.ReflTransGen.single hstep) 5 (by simp)

theorem exec_frames_length (hash : ByteStr → Nat) (cs : List RespObject) :
    ∀ st : Store, (exec_frames hash st cs).2.length = cs.length := by
  induction cs with
  | nil => intro st; rfl
  | cons c cs ih =>
    intro st
    simp [exec_frames, ih]

/-- C3: per-connection FIFO.  For a batch of complete frames arriving in
wire order, the first command is executed on the current store and its
reply bytes are emitted before all bytes of every later command's reply;
one reply is produced per command, in the same order. -/
theorem fifo_per_connection (hash : ByteStr → Nat) (st : Store)
    (c1 : RespObject) (cs : List RespObject) :
    out_bytes hash st (c1 :: cs) =
      serialize (execute_command hash st c1).2 ++
        out_bytes hash (execute_command hash st c1).1 cs ∧
    (exec_frames hash st (c1 :: cs)).2 =
      (execute_command hash st c1).2 ::
        (exec_frames hash (execute_command hash st c1).1 cs).2 ∧
    (exec_frames hash st (c1 :: cs)).2.length = cs.length + 1 := by
  refine ⟨?_, rfl, ?_⟩
  · simp [out_bytes, exec_frames]
  · simpa using exec_frames_length hash (c1 :: cs) st

/-- C4: the lock-acquisition traces of the orchestrator's threads respect
the total order `all_sockets_mtx` < connection mutex <
`epoll_sockets_mtx` < `write_sockets_mtx` < `processing_sockets_mtx` <
shard lock: on every critical path each lock taken while another is held
is at a strictly greater level, so no two locks of the same level are
ever held together and a shard lock taken below a connection mutex is
strictly inner. -/
theorem lock_hierarchy (t : List LockId) (h : t ∈ lock_traces) :
    trace_ordered t = true ∧
    lock_level .all_sockets_mtx < lock_level .conn_mutex ∧
    lock_level .conn_mutex < lock_level .epoll_sockets_mtx ∧
    lock_level .epoll_sockets_mtx < lock_level .write_sockets_mtx ∧
    lock_level .write_sockets_mtx < lock_level .processing_sockets_mtx ∧
    lock_level .processing_sockets_mtx < lock_level .shard_lock := by
  refine ⟨?_, by decide, by decide, by decide, by decide, by decide⟩
  simp only [lock_traces, List.mem_cons, List.not_mem_nil, or_false] at h
  rcases h with rfl | rfl | rfl | rfl | rfl | rfl | rfl | rfl | rfl <;>
    decide

/-- Witness for C4: the execute stage's trace taking a shard lock inside
a connection mutex is in the trace set and is strictly ordered. -/
theorem lock_hierarchy_witness :
    [LockId.conn_mutex, LockId.shard_lock] ∈ lock_traces ∧
    (trace_ordered [LockId.conn_mutex, LockId.shard_lock] = true ∧
     lock_level .all_sockets_mtx < lock_level .conn_mutex ∧
     lock_level .conn_mutex < lock_level .epoll_sockets_mtx ∧
     lock_level .epoll_sockets_mtx < lock_level .write_sockets_mtx ∧
     lock_level .write_sockets_mtx < lock_level .processing_sockets_mtx ∧
     lock_level .processing_sockets_mtx < lock_level .shard_lock) :=
  ⟨by decide,
   lock_hierarchy [LockId.conn_mutex, LockId.shard_lock] (by decide)⟩

theorem do_operation_app_error (hash : ByteStr → Nat) (st : Store)
    (p : RespObject) (happ : appLevelError p = true) :
    do_operation hash st p = (st, (false, .respError ERR_INVALID)) := by
  unfold appLevelError at happ
  unfold do_operation
  cases hcmd : (is_valid_command p).2 with
  | COMMAND_INVALID => rfl
  | COMMAND_GET =>
    rw [hcmd] at happ
    simp only [Option.isNone_iff_eq_none] at happ
    simp [do_get, happ]
  | COMMAND_DEL =>
    rw [hcmd] at happ
    simp only [Option.isNone_iff_eq_none] at happ
    simp [do_del, happ]
  | COMMAND_SET =>
    rw [hcmd] at happ
    simp only [Option.isNone_iff_eq_none] at happ
    simp [do_set, happ]

/-- C6: every application-level error — an unknown command, a wrong
arity, or a recognised verb with wrong argument types — replies with a
RESP Error whose wire form begins with `-ERR` while the store is
untouched and the connection stays open; a connection is dropped only by
a byte-level framing error, a transport error or EOF. -/
theorem app_error_keeps_connection (hash : ByteStr → Nat) (st : Store)
    (p : RespObject) (e : ConnEvent)
    (happ : appLevelError p = true) :
    conn_step hash st (.parsed p) =
      (st, some (.respError ERR_INVALID), true) ∧
    serialize (.respError ERR_INVALID) =
      strBytes "-ERR" ++ strBytes " invalid command" ++ CRLF ∧
    ((conn_step hash st e).2.2 = false →
      e = .malformedFrame ∨ e = .ioError ∨ e = .eofClosed) := by
  refine ⟨?_, by decide, ?_⟩
  · simp [conn_step, do_operation_app_error hash st p happ]
  · cases e <;> simp [conn_step]

/-- Witness for C6: `DEL` with an Integer argument has a valid verb and
arity but a wrong argument type; it replies `-ERR ...` and keeps the
connection open; `ioError` is among the events allowed to drop the
connection. -/
theorem app_error_keeps_connection_witness :
    appLevelError (.array [.bulk DEL_BYTES, .integer 5]) = true ∧
    (conn_step (fun b => b.length) Store.init
        (.parsed (.array [.bulk DEL_BYTES, .integer 5])) =
      (Store.init, some (.respError ERR_INVALID), true) ∧
     serialize (.respError ERR_INVALID) =
       strBytes "-ERR" ++ strBytes " invalid command" ++ CRLF ∧
     ((conn_step (fun b => b.length) Store.init ConnEvent.ioError).2.2 =
        false →
       ConnEvent.ioError = .malformedFrame ∨
       ConnEvent.ioError = .ioError ∨
       ConnEvent.ioError = .eofClosed)) :=
  ⟨by decide,
   app_error_keeps_connection (fun b => b.length) Store.init
     (.array [.bulk DEL_BYTES, .integer 5]) ConnEvent.ioError (by decide)⟩

/-- C9: the constructor builds exactly the four thread pools declared in
the header — read, processing, write, parse-and-run — each created by
`create_thread_pool(8, false)` with a fixed worker count of 8. -/
theorem constructor_thread_pools :
    Orchestrator.construct.m_read_threadpool =
      some (create_thread_pool 8 false) ∧
    Orchestrator.construct.m_processing_threadpool =
      some (create_thread_pool 8 false) ∧
    Orchestrator.construct.m_write_threadpool =
      some (create_thread_pool 8 false) ∧
    Orchestrator.construct.m_parse_and_run_threadpool =
      some (create_thread_pool 8 false) ∧
    (create_thread_pool 8 false).num_threads = 8 :=
  ⟨rfl, rfl, rfl, rfl, rfl⟩

/-- C10: immediately after construction the orchestrator is not
destroying, has no listening socket or epoll instance (`m_server_socket`
and `m_epoll_fd` equal -1), all four thread-pool pointers are non-null,
and no fd is registered in `all_sockets`. -/
theorem constructor_initial_state :
    Orchestrator.construct.m_is_destroying = false ∧
    Orchestrator.construct.m_server_socket = -1 ∧
    Orchestrator.construct.m_epoll_fd = -1 ∧
    Orchestrator.construct.m_read_threadpool.isSome = true ∧
    Orchestrator.construct.m_processing_threadpool.isSome = true ∧
    Orchestrator.construct.m_write_threadpool.isSome = true ∧
    Orchestrator.construct.m_parse_and_run_threadpool.isSome = true ∧
    Orchestrator.construct.m_all_sockets = [] :=
  ⟨rfl, rfl, rfl, rfl, rfl, rfl, rfl, rfl⟩

end Orch
